import Mathlib

/-!
Shallow embedding of the computational core of `src/script.js` (a color
perception quiz): `hexToRgb`, `rgbToHsl`, the hex-formatting half of
`generateRandomColor`, and `calculateScore`.

Modelling choices:
* JavaScript numbers are embedded as `ℚ` (all arithmetic in the program is
  exact on the inputs of interest); the only irrational step, `Math.sqrt`
  in the RMSE, is stated over `ℝ` in the theorems (`Real.sqrt`).
* Strings are `List Char`.
* `parseInt(s, 16)` is embedded as `jsParseIntHex`, returning `Option Int`
  with `none` playing the role of `NaN`, following the ECMAScript
  semantics: skip leading white space, consume an optional `+`/`-` sign,
  strip an optional `0x`/`0X` prefix (accepted for radix 16), then parse
  the longest prefix of hexadecimal digits; `NaN` when that prefix is
  empty.
* The bitwise operators `>>` and `&` apply `ToInt32` to their operands,
  which maps `NaN` to `0` and wraps modulo `2^32` (two's complement for
  negative parses); since the results are masked with `& 255`,
  arithmetic-vs-logical shift is irrelevant and the extraction is
  `(bigint % 2^32).toNat / 2^k % 256`.
-/

/-- JavaScript `c.toUpperCase()` restricted to single ASCII characters:
lowercase letters are shifted to uppercase, everything else is unchanged. -/
def jsToUpper (c : Char) : Char :=
  if 97 ≤ c.toNat ∧ c.toNat ≤ 122 then Char.ofNat (c.toNat - 32) else c

/-- Whether `c` is a hexadecimal digit in the sense of `parseInt(·, 16)`:
`0-9`, `a-f` or `A-F`. -/
def jsIsHexDigit (c : Char) : Bool :=
  (48 ≤ c.toNat ∧ c.toNat ≤ 57) || (97 ≤ c.toNat ∧ c.toNat ≤ 102) ||
    (65 ≤ c.toNat ∧ c.toNat ≤ 70)

/-- Numeric value of a hexadecimal digit character. -/
def jsHexVal (c : Char) : Nat :=
  if c.toNat ≤ 57 then c.toNat - 48
  else if 97 ≤ c.toNat then c.toNat - 87
  else c.toNat - 55

/-- ECMAScript white space trimmed by `parseInt` (`WhiteSpace` plus
`LineTerminator`, by code point): TAB 9, LF 10, VT 11, FF 12, CR 13,
SP 32, NBSP 160, 5760, 8192-8202, LS 8232, PS 8233, 8239, 8287, 12288
and ZWNBSP 65279. -/
def jsIsWhitespace (c : Char) : Bool :=
  c.toNat = 9 || c.toNat = 10 || c.toNat = 11 || c.toNat = 12 ||
    c.toNat = 13 || c.toNat = 32 || c.toNat = 160 || c.toNat = 5760 ||
    (8192 ≤ c.toNat ∧ c.toNat ≤ 8202) || c.toNat = 8232 ||
    c.toNat = 8233 || c.toNat = 8239 || c.toNat = 8287 ||
    c.toNat = 12288 || c.toNat = 65279

/-- The optional leading sign consumed by `parseInt` (`-` is code point
45, `+` is 43): returns the sign and the remaining characters. -/
def jsSignSplit (t : List Char) : Int × List Char :=
  match t with
  | c :: rest =>
    if c.toNat = 45 then (-1, rest)
    else if c.toNat = 43 then (1, rest)
    else (1, c :: rest)
  | [] => (1, [])

/-- The optional `0x`/`0X` prefix that `parseInt` strips for radix 16
(`0` is code point 48, `x` 120, `X` 88). -/
def jsStripHexPrefix (t : List Char) : List Char :=
  match t with
  | a :: b :: rest =>
    if a.toNat = 48 ∧ (b.toNat = 120 ∨ b.toNat = 88) then rest
    else a :: b :: rest
  | t => t

/-- The digit phase of `parseInt(·, 16)`: the longest prefix of
hexadecimal digits, `none` (`NaN`) when that prefix is empty. -/
def jsParseHexDigits (s : List Char) : Option Nat :=
  let digits := s.takeWhile jsIsHexDigit
  if digits.isEmpty then none
  else some (digits.foldl (fun acc c => 16 * acc + jsHexVal c) 0)

/-- JavaScript `parseInt(s, 16)` per ECMAScript: trim leading white
space, consume an optional sign, strip an optional `0x`/`0X` prefix,
then parse the longest prefix of hexadecimal digits; `none` models the
`NaN` returned when no digit follows. -/
def jsParseIntHex (s : List Char) : Option Int :=
  let t := s.dropWhile jsIsWhitespace
  let p := jsSignSplit t
  let u := jsStripHexPrefix p.2
  Option.map (fun n : Nat => p.1 * (n : Int)) (jsParseHexDigits u)

/-- `hexToRgb` from `script.js`: drop the leading `#`, parse the rest with
`parseInt(·, 16)`, and extract the three bytes with shift-and-mask.
`ToInt32` inside `>>`/`&` sends `NaN` to `0` (hence `Option.getD 0`) and
wraps modulo `2^32` in two's complement (`Int.emod` by `2^32` is exactly
that wrap); masking with `255` makes the byte extractions
`/ 2^16 % 256`, `/ 2^8 % 256` and `% 256`. -/
def hexToRgb (hex : List Char) : List Nat :=
  let bigint := (((jsParseIntHex (hex.drop 1)).getD 0) % 2 ^ 32).toNat
  [bigint / 2 ^ 16 % 256, bigint / 2 ^ 8 % 256, bigint % 256]

/-- JavaScript `n.toString(16)` for a natural number: minimal-length
lowercase hexadecimal digits. `hexDigitChar k` is the character for a
single digit `k < 16`. -/
def hexDigitChar (n : Nat) : Char :=
  if n < 10 then Char.ofNat (48 + n) else Char.ofNat (87 + n)

/-- JavaScript `n.toString(16)` (lowercase, no leading zeros, `0 ↦ "0"`). -/
def natToHexLower (n : Nat) : List Char :=
  if _h : n < 16 then [hexDigitChar n]
  else natToHexLower (n / 16) ++ [hexDigitChar (n % 16)]
decreasing_by exact Nat.div_lt_self (by omega) (by omega)

/-- JavaScript `s.padStart(2, '0')`. -/
def padStart2 (s : List Char) : List Char :=
  List.replicate (2 - s.length) '0' ++ s

/-- The hex-formatting half of `generateRandomColor` from `script.js`:
`` `#${hexR}${hexG}${hexB}`.toUpperCase() `` where each component is
`toString(16).padStart(2, '0')`. -/
def hexOf (r g b : Nat) : List Char :=
  ('#' :: (padStart2 (natToHexLower r) ++ padStart2 (natToHexLower g) ++
    padStart2 (natToHexLower b))).map jsToUpper

/-- `rgbToHsl` from `script.js`: channels are normalized to `[0,1]`,
lightness is `(max+min)/2`; for achromatic input hue and saturation are
`0`; otherwise saturation is `d/(2-max-min)` when `l > 0.5` else
`d/(max+min)`, and hue comes from the `switch (max)` testing `r`, then
`g`, then `b` (value equality, first match wins), divided by 6; the
returned triple is `(h*360, s*100, l*100)`. -/
def rgbToHsl (r g b : ℚ) : ℚ × ℚ × ℚ :=
  let r' := r / 255
  let g' := g / 255
  let b' := b / 255
  let mx := max r' (max g' b')
  let mn := min r' (min g' b')
  let l := (mx + mn) / 2
  if mx = mn then (0 * 360, 0 * 100, l * 100)
  else
    let d := mx - mn
    let s := if 1 / 2 < l then d / (2 - mx - mn) else d / (mx + mn)
    let h :=
      if mx = r' then (g' - b') / d + (if g' < b' then 6 else 0)
      else if mx = g' then (b' - r') / d + 2
      else (r' - g') / d + 4
    (h / 6 * 360, s * 100, l * 100)

/-- Spec-side description of the non-achromatic branch of `rgbToHsl`,
written from the claim's words (for comparison with the source-derived
`rgbToHsl`): channels normalized to `[0,1]`, lightness `(max+min)/2`,
saturation `delta/(2-max-min)` when lightness exceeds `0.5` and
`delta/(max+min)` otherwise, hue from the standard six-segment formula at
60° per segment (the red segment wrapping by `+6` when negative), the
segment chosen by testing the max against red, then green, then blue,
first match winning. -/
def rgbToHslSpec (r g b : ℚ) : ℚ × ℚ × ℚ :=
  let r' := r / 255
  let g' := g / 255
  let b' := b / 255
  let mx := max r' (max g' b')
  let mn := min r' (min g' b')
  let lightness := (mx + mn) / 2
  let delta := mx - mn
  let saturation :=
    if 1 / 2 < lightness then delta / (2 - mx - mn) else delta / (mx + mn)
  let segment :=
    if mx = r' then
      (if (g' - b') / delta < 0 then (g' - b') / delta + 6
       else (g' - b') / delta)
    else if mx = g' then (b' - r') / delta + 2
    else (r' - g') / delta + 4
  (60 * segment, saturation * 100, lightness * 100)

/-- A quiz question as stored by `setupQuestions`: the canonical hex string
and the three RGB components. -/
structure Question where
  hex : List Char
  r : Nat
  g : Nat
  b : Nat

/-- The numeric content of the score display built by `calculateScore`:
per-channel average RGB and HSL errors (in percent) and the mean of the
pooled squared normalized RGB errors; the displayed RMSE is
`Real.sqrt mse * 100`. -/
structure ScoreReport where
  avgRgbError : List ℚ
  avgHslError : List ℚ
  mse : ℚ

/-- The user RGB for one question: `hexToRgb("#" + (answer || "000000"))` —
an empty answer string is replaced by `"000000"`. -/
def userAnswerRgb (ans : List Char) : List Nat :=
  hexToRgb ('#' :: (if ans = [] then "000000".toList else ans))

/-- The inner loop of `calculateScore`, RGB part: per channel,
`(user - correct) / 255`. -/
def questionRgbErrors (q : Question) (ans : List Char) : List ℚ :=
  List.zipWith (fun u c => ((u : ℚ) - c) / 255) (userAnswerRgb ans)
    [(q.r : ℚ), (q.g : ℚ), (q.b : ℚ)]

/-- The hue branch of the HSL error in `calculateScore`: circular distance
on the 360° hue circle, normalized by 180. -/
def hueError (u c : ℚ) : ℚ :=
  let diff := |u - c|
  min diff (360 - diff) / 180

/-- The saturation/lightness branch of the HSL error in `calculateScore`:
signed difference normalized by 100. -/
def slError (u c : ℚ) : ℚ := (u - c) / 100

/-- Apply `rgbToHsl` to a 3-element RGB list (the spread
`rgbToHsl(...rgb)` in `calculateScore`). -/
def hslTriple (rgb : List Nat) : ℚ × ℚ × ℚ :=
  rgbToHsl (rgb.getD 0 0) (rgb.getD 1 0) (rgb.getD 2 0)

/-- The inner loop of `calculateScore`, HSL part: hue error is the
normalized circular distance, saturation and lightness errors are signed
normalized differences. -/
def questionHslErrors (q : Question) (ans : List Char) : List ℚ :=
  let c := hslTriple [q.r, q.g, q.b]
  let u := hslTriple (userAnswerRgb ans)
  [hueError u.1 c.1, slError u.2.1 c.2.1, slError u.2.2 c.2.2]

/-- `calculateScore` from `script.js`, with the question list and the
answer strings passed explicitly (the source reads them from module state
and the DOM; `numQuestions` is the session's question count). Accumulates
per-channel RGB and HSL error sums, pools every squared normalized RGB
error into one flat list, and returns the averages scaled to percent
together with the mean of the pooled squared errors. -/
def calculateScore (questions : List Question) (answers : List (List Char)) :
    ScoreReport :=
  let n := questions.length
  let pairs := List.zip questions answers
  let totalRgbError := pairs.foldl
    (fun acc p => List.zipWith (· + ·) acc (questionRgbErrors p.1 p.2))
    [0, 0, 0]
  let totalHslError := pairs.foldl
    (fun acc p => List.zipWith (· + ·) acc (questionHslErrors p.1 p.2))
    [0, 0, 0]
  let squaredErrors := pairs.flatMap
    (fun p => (questionRgbErrors p.1 p.2).map (fun e => e ^ 2))
  let avgRgbError := totalRgbError.map (fun e => e / (n : ℚ) * 100)
  let avgHslError := totalHslError.map (fun e => e / (n : ℚ) * 100)
  let mse := squaredErrors.foldl (· + ·) 0 / (squaredErrors.length : ℚ)
  ⟨avgRgbError, avgHslError, mse⟩

/-! ### Round-trip lemmas for `hexToRgb ∘ hexOf` -/

/-- Each hex digit character, after `toUpperCase`, is still a hex digit,
keeps its numeric value, and is neither white space nor one of the
characters (`-` 45, `+` 43, `x` 120, `X` 88) special to `parseInt`. -/
lemma hexDigit_up_spec :
    ∀ k < 16, jsIsHexDigit (jsToUpper (hexDigitChar k)) = true ∧
      jsHexVal (jsToUpper (hexDigitChar k)) = k ∧
      jsIsWhitespace (jsToUpper (hexDigitChar k)) = false ∧
      (jsToUpper (hexDigitChar k)).toNat ≠ 45 ∧
      (jsToUpper (hexDigitChar k)).toNat ≠ 43 ∧
      (jsToUpper (hexDigitChar k)).toNat ≠ 120 ∧
      (jsToUpper (hexDigitChar k)).toNat ≠ 88 := by decide

lemma jsToUpper_hash : jsToUpper '#' = '#' := by decide

lemma natToHexLower_lt (n : Nat) (h : n < 16) :
    natToHexLower n = [hexDigitChar n] := by
  rw [natToHexLower]
  simp [h]

/-- For a byte, `toString(16).padStart(2, '0')` is exactly the two digit
characters of `n / 16` and `n % 16`. -/
lemma padTwoHex (n : Nat) (h : n ≤ 255) :
    padStart2 (natToHexLower n) =
      [hexDigitChar (n / 16), hexDigitChar (n % 16)] := by
  rcases lt_or_le n 16 with h16 | h16
  · have h0 : n / 16 = 0 := by omega
    have h1 : n % 16 = n := by omega
    have hz : hexDigitChar 0 = '0' := by decide
    rw [natToHexLower_lt n h16, h0, h1, hz]
    rfl
  · rw [natToHexLower, dif_neg (by omega), natToHexLower_lt _ (by omega)]
    rfl

/-- Round-trip: parsing the canonical uppercase `#RRGGBB` string of a byte
triple recovers the triple. -/
lemma hexToRgb_hexOf (r g b : Nat) (hr : r ≤ 255) (hg : g ≤ 255)
    (hb : b ≤ 255) : hexToRgb (hexOf r g b) = [r, g, b] := by
  have e1 := hexDigit_up_spec (r / 16) (by omega)
  have e2 := hexDigit_up_spec (r % 16) (by omega)
  have e3 := hexDigit_up_spec (g / 16) (by omega)
  have e4 := hexDigit_up_spec (g % 16) (by omega)
  have e5 := hexDigit_up_spec (b / 16) (by omega)
  have e6 := hexDigit_up_spec (b % 16) (by omega)
  rw [hexOf, padTwoHex r hr, padTwoHex g hg, padTwoHex b hb]
  simp only [List.cons_append, List.nil_append, List.map_cons, List.map_nil,
    jsToUpper_hash]
  rw [hexToRgb, jsParseIntHex]
  simp only [List.drop_succ_cons, List.drop_zero, List.dropWhile_cons,
    e1.2.2.1, Bool.false_eq_true, if_false, jsSignSplit]
  rw [if_neg e1.2.2.2.1, if_neg e1.2.2.2.2.1]
  dsimp only
  simp only [jsStripHexPrefix]
  rw [if_neg (fun h => h.2.elim (fun h2 => e2.2.2.2.2.2.1 h2)
    (fun h2 => e2.2.2.2.2.2.2 h2))]
  rw [jsParseHexDigits]
  simp only [List.takeWhile_cons, e1.1, e2.1, e3.1, e4.1, e5.1, e6.1,
    if_true, List.takeWhile_nil, List.isEmpty_cons, List.foldl_cons,
    List.foldl_nil, e1.2.1, e2.2.1, e3.2.1, e4.2.1, e5.2.1, e6.2.1]
  simp only [Bool.false_eq_true, if_false, Option.map_some', Option.getD_some,
    one_mul]
  simp only [List.cons.injEq, eq_self_iff_true, and_true]
  exact ⟨by omega, by omega, by omega⟩

/-! ### Case-insensitivity of `hexToRgb` -/

lemma char_toNat_ofNat (n : Nat) (h : n < 55296) : (Char.ofNat n).toNat = n := by
  have hv : n.isValidChar := Or.inl h
  simp only [Char.ofNat, hv, dif_pos, Char.ofNatAux, Char.toNat]
  exact BitVec.toNat_ofNatLt n _

/-- `toUpperCase` preserves hex-digit-ness. -/
lemma jsIsHexDigit_jsToUpper (c : Char) :
    jsIsHexDigit (jsToUpper c) = jsIsHexDigit c := by
  unfold jsToUpper
  by_cases h : 97 ≤ c.toNat ∧ c.toNat ≤ 122
  · rw [if_pos h]
    have ht : (Char.ofNat (c.toNat - 32)).toNat = c.toNat - 32 :=
      char_toNat_ofNat _ (by omega)
    rw [Bool.eq_iff_iff]
    simp only [jsIsHexDigit, ht, Bool.or_eq_true, decide_eq_true_eq]
    omega
  · rw [if_neg h]

/-- `toUpperCase` preserves the numeric value of a hex digit. -/
lemma jsHexVal_jsToUpper (c : Char) (hc : jsIsHexDigit c = true) :
    jsHexVal (jsToUpper c) = jsHexVal c := by
  unfold jsToUpper
  by_cases h : 97 ≤ c.toNat ∧ c.toNat ≤ 122
  · rw [if_pos h]
    have ht : (Char.ofNat (c.toNat - 32)).toNat = c.toNat - 32 :=
      char_toNat_ofNat _ (by omega)
    simp only [jsIsHexDigit, Bool.or_eq_true, decide_eq_true_eq] at hc
    simp only [jsHexVal, ht]
    split_ifs <;> omega
  · rw [if_neg h]

/-- Code point of the `toUpperCase` output. -/
lemma jsToUpper_toNat (c : Char) :
    (jsToUpper c).toNat =
      if 97 ≤ c.toNat ∧ c.toNat ≤ 122 then c.toNat - 32 else c.toNat := by
  unfold jsToUpper
  by_cases h : 97 ≤ c.toNat ∧ c.toNat ≤ 122
  · rw [if_pos h, if_pos h]
    exact char_toNat_ofNat _ (by omega)
  · rw [if_neg h, if_neg h]

/-- `toUpperCase` preserves `parseInt` white space. -/
lemma jsIsWhitespace_jsToUpper (c : Char) :
    jsIsWhitespace (jsToUpper c) = jsIsWhitespace c := by
  rw [Bool.eq_iff_iff]
  simp only [jsIsWhitespace, Bool.or_eq_true, decide_eq_true_eq,
    jsToUpper_toNat]
  split_ifs with h <;> omega

/-- White-space trimming is unchanged by upper-casing. -/
lemma dropWhile_jsIsWhitespace_map (t : List Char) :
    (t.map jsToUpper).dropWhile jsIsWhitespace =
      (t.dropWhile jsIsWhitespace).map jsToUpper := by
  rw [List.dropWhile_map]
  have hp : (jsIsWhitespace ∘ jsToUpper) = jsIsWhitespace :=
    funext fun c => jsIsWhitespace_jsToUpper c
  rw [hp]

/-- The sign phase of `parseInt` is unchanged by upper-casing. -/
lemma jsSignSplit_map_jsToUpper (t : List Char) :
    jsSignSplit (t.map jsToUpper) =
      ((jsSignSplit t).1, (jsSignSplit t).2.map jsToUpper) := by
  cases t with
  | nil => rfl
  | cons c rest =>
    have h45 : ((jsToUpper c).toNat = 45) ↔ (c.toNat = 45) := by
      rw [jsToUpper_toNat]
      split_ifs with h <;> omega
    have h43 : ((jsToUpper c).toNat = 43) ↔ (c.toNat = 43) := by
      rw [jsToUpper_toNat]
      split_ifs with h <;> omega
    simp only [List.map_cons, jsSignSplit]
    by_cases hc : c.toNat = 45
    · rw [if_pos (h45.mpr hc), if_pos hc]
    · rw [if_neg (fun hh => hc (h45.mp hh)), if_neg hc]
      by_cases hc2 : c.toNat = 43
      · rw [if_pos (h43.mpr hc2), if_pos hc2]
      · rw [if_neg (fun hh => hc2 (h43.mp hh)), if_neg hc2]
        simp

/-- The `0x`/`0X` prefix phase of `parseInt` is unchanged by
upper-casing. -/
lemma jsStripHexPrefix_map_jsToUpper (t : List Char) :
    jsStripHexPrefix (t.map jsToUpper) =
      (jsStripHexPrefix t).map jsToUpper := by
  rcases t with _ | ⟨a, _ | ⟨b, rest⟩⟩
  · rfl
  · rfl
  · have hcond : ((jsToUpper a).toNat = 48 ∧
        ((jsToUpper b).toNat = 120 ∨ (jsToUpper b).toNat = 88)) ↔
        (a.toNat = 48 ∧ (b.toNat = 120 ∨ b.toNat = 88)) := by
      rw [jsToUpper_toNat, jsToUpper_toNat]
      split_ifs <;> omega
    simp only [List.map_cons, jsStripHexPrefix]
    by_cases hc : a.toNat = 48 ∧ (b.toNat = 120 ∨ b.toNat = 88)
    · rw [if_pos (hcond.mpr hc), if_pos hc]
    · rw [if_neg (fun hh => hc (hcond.mp hh)), if_neg hc]
      simp

/-- The digit phase of `parseInt(·, 16)` is unchanged by upper-casing. -/
lemma jsParseHexDigits_map_jsToUpper (s : List Char) :
    jsParseHexDigits (s.map jsToUpper) = jsParseHexDigits s := by
  unfold jsParseHexDigits
  have hp : (fun c => jsIsHexDigit (jsToUpper c)) = jsIsHexDigit :=
    funext jsIsHexDigit_jsToUpper
  rw [List.takeWhile_map]
  simp only [Function.comp_def, hp]
  have hie : ∀ l : List Char, (l.map jsToUpper).isEmpty = l.isEmpty := by
    intro l
    cases l <;> rfl
  rw [hie, List.foldl_map]
  have hfold : ∀ (init : Nat),
      (s.takeWhile jsIsHexDigit).foldl
        (fun acc c => 16 * acc + jsHexVal (jsToUpper c)) init =
      (s.takeWhile jsIsHexDigit).foldl
        (fun acc c => 16 * acc + jsHexVal c) init := by
    intro init
    refine List.foldl_ext _ _ _ ?_
    intro a x hx
    rw [jsHexVal_jsToUpper x (List.mem_takeWhile_imp hx)]
  rw [hfold]

/-- `parseInt(·, 16)` is unchanged by upper-casing the string. -/
lemma jsParseIntHex_map_jsToUpper (s : List Char) :
    jsParseIntHex (s.map jsToUpper) = jsParseIntHex s := by
  unfold jsParseIntHex
  dsimp only
  rw [dropWhile_jsIsWhitespace_map, jsSignSplit_map_jsToUpper]
  dsimp only
  rw [jsStripHexPrefix_map_jsToUpper, jsParseHexDigits_map_jsToUpper]

/-- `hexToRgb` is unchanged by upper-casing its argument. -/
lemma hexToRgb_map_jsToUpper (s : List Char) :
    hexToRgb (s.map jsToUpper) = hexToRgb s := by
  unfold hexToRgb
  rw [← List.map_drop, jsParseIntHex_map_jsToUpper]

/-! ### Lemmas about `rgbToHsl` -/

/-- Gray inputs take the achromatic branch: hue and saturation are `0` and
lightness is the common normalized channel value. -/
lemma rgbToHsl_gray (v : ℚ) : rgbToHsl v v v = (0, 0, v / 255 * 100) := by
  dsimp only [rgbToHsl]
  rw [max_self, max_self, min_self, min_self, if_pos rfl]
  norm_num

/-- Range postcondition of `rgbToHsl` (helper for the claim theorem):
hue in `[0, 360)`, saturation and lightness in `[0, 100]`. -/
lemma rgbToHsl_range (r g b : ℚ) (hr0 : 0 ≤ r) (hr1 : r ≤ 255)
    (hg0 : 0 ≤ g) (hg1 : g ≤ 255) (hb0 : 0 ≤ b) (hb1 : b ≤ 255) :
    0 ≤ (rgbToHsl r g b).1 ∧ (rgbToHsl r g b).1 < 360 ∧
    0 ≤ (rgbToHsl r g b).2.1 ∧ (rgbToHsl r g b).2.1 ≤ 100 ∧
    0 ≤ (rgbToHsl r g b).2.2 ∧ (rgbToHsl r g b).2.2 ≤ 100 := by
  dsimp only [rgbToHsl]
  set r' := r / 255 with hr'
  set g' := g / 255 with hg'
  set b' := b / 255 with hb'
  have hr'0 : 0 ≤ r' := div_nonneg hr0 (by norm_num)
  have hg'0 : 0 ≤ g' := div_nonneg hg0 (by norm_num)
  have hb'0 : 0 ≤ b' := div_nonneg hb0 (by norm_num)
  have hr'1 : r' ≤ 1 := by rw [hr', div_le_one (by norm_num)]; exact hr1
  have hg'1 : g' ≤ 1 := by rw [hg', div_le_one (by norm_num)]; exact hg1
  have hb'1 : b' ≤ 1 := by rw [hb', div_le_one (by norm_num)]; exact hb1
  set mx := max r' (max g' b') with hmxd
  set mn := min r' (min g' b') with hmnd
  have hrmx : r' ≤ mx := le_max_left _ _
  have hgmx : g' ≤ mx := le_trans (le_max_left _ _) (le_max_right _ _)
  have hbmx : b' ≤ mx := le_trans (le_max_right _ _) (le_max_right _ _)
  have hmnr : mn ≤ r' := min_le_left _ _
  have hmng : mn ≤ g' := le_trans (min_le_right _ _) (min_le_left _ _)
  have hmnb : mn ≤ b' := le_trans (min_le_right _ _) (min_le_right _ _)
  have hmx1 : mx ≤ 1 := max_le hr'1 (max_le hg'1 hb'1)
  have hmn0 : 0 ≤ mn := le_min hr'0 (le_min hg'0 hb'0)
  have hmnmx : mn ≤ mx := le_trans hmnr hrmx
  by_cases hac : mx = mn
  · rw [if_pos hac]
    refine ⟨by norm_num, by norm_num, by norm_num, by norm_num, ?_, ?_⟩
    · have : 0 ≤ (mx + mn) / 2 := by linarith
      linarith
    · have hmn1 : mn ≤ 1 := le_trans hmnmx hmx1
      linarith
  · rw [if_neg hac]
    have hd : 0 < mx - mn := sub_pos.mpr (lt_of_le_of_ne hmnmx (fun h => hac h.symm))
    have hh : 0 ≤ (if mx = r' then (g' - b') / (mx - mn) +
          (if g' < b' then (6 : ℚ) else 0)
        else if mx = g' then (b' - r') / (mx - mn) + 2
        else (r' - g') / (mx - mn) + 4) ∧
        (if mx = r' then (g' - b') / (mx - mn) +
          (if g' < b' then (6 : ℚ) else 0)
        else if mx = g' then (b' - r') / (mx - mn) + 2
        else (r' - g') / (mx - mn) + 4) < 6 := by
      split_ifs with hR hgb hG
      · have hq1 : -1 ≤ (g' - b') / (mx - mn) := by
          rw [le_div_iff₀ hd]
          linarith
        have hq2 : (g' - b') / (mx - mn) < 0 :=
          div_neg_of_neg_of_pos (by linarith) hd
        constructor <;> linarith
      · have hq1 : 0 ≤ (g' - b') / (mx - mn) :=
          div_nonneg (by linarith [not_lt.mp hgb]) hd.le
        have hq2 : (g' - b') / (mx - mn) ≤ 1 := by
          rw [div_le_one hd]
          linarith
        constructor <;> linarith
      · have hq1 : -1 ≤ (b' - r') / (mx - mn) := by
          rw [le_div_iff₀ hd]
          linarith
        have hq2 : (b' - r') / (mx - mn) ≤ 1 := by
          rw [div_le_one hd]
          linarith
        constructor <;> linarith
      · have hq1 : -1 ≤ (r' - g') / (mx - mn) := by
          rw [le_div_iff₀ hd]
          linarith
        have hq2 : (r' - g') / (mx - mn) ≤ 1 := by
          rw [div_le_one hd]
          linarith
        constructor <;> linarith
    have hs : 0 ≤ (if 1 / 2 < (mx + mn) / 2 then (mx - mn) / (2 - mx - mn)
          else (mx - mn) / (mx + mn)) ∧
        (if 1 / 2 < (mx + mn) / 2 then (mx - mn) / (2 - mx - mn)
          else (mx - mn) / (mx + mn)) ≤ 1 := by
      split_ifs with hl
      · have hden : 0 < 2 - mx - mn := by linarith
        constructor
        · exact div_nonneg hd.le hden.le
        · rw [div_le_one hden]
          linarith
      · have hden : 0 < mx + mn := by linarith
        constructor
        · exact div_nonneg hd.le hden.le
        · rw [div_le_one hden]
          linarith
    refine ⟨by linarith [hh.1, hh.2], by linarith [hh.1, hh.2],
      by linarith [hs.1, hs.2], by linarith [hs.1, hs.2], ?_, ?_⟩
    · have hmn1 : mn ≤ 1 := le_trans hmnmx hmx1
      linarith
    · have hmn1 : mn ≤ 1 := le_trans hmnmx hmx1
      linarith

/-- On non-achromatic inputs the source `rgbToHsl` computes exactly the
spec-side `rgbToHslSpec` (helper for the claim theorem). -/
lemma rgbToHsl_eq_spec (r g b : ℚ)
    (hne : max (r / 255) (max (g / 255) (b / 255)) ≠
      min (r / 255) (min (g / 255) (b / 255))) :
    rgbToHsl r g b = rgbToHslSpec r g b := by
  dsimp only [rgbToHsl, rgbToHslSpec]
  set r' := r / 255 with hr'
  set g' := g / 255 with hg'
  set b' := b / 255 with hb'
  set mx := max r' (max g' b') with hmxd
  set mn := min r' (min g' b') with hmnd
  have hmnmx : mn ≤ mx := le_trans (min_le_left _ _) (le_max_left _ _)
  have hd : 0 < mx - mn := sub_pos.mpr (lt_of_le_of_ne hmnmx (Ne.symm hne))
  rw [if_neg hne]
  have hiff : ((g' - b') / (mx - mn) < 0) ↔ (g' < b') := by
    rw [div_neg_iff]
    constructor
    · rintro (⟨_, hneg⟩ | ⟨hlt, _⟩)
      · linarith
      · linarith
    · intro h
      exact Or.inr ⟨by linarith, hd⟩
  simp only [Prod.mk.injEq, hiff, and_true, eq_self_iff_true]
  split_ifs <;> ring

/-! ### Lemmas about `calculateScore` -/

lemma hueError_self (x : ℚ) : hueError x x = 0 := by
  show min |x - x| (360 - |x - x|) / 180 = 0
  rw [sub_self, abs_zero, min_eq_left (by norm_num)]
  norm_num

lemma slError_self (x : ℚ) : slError x x = 0 := by
  unfold slError
  rw [sub_self, zero_div]

/-- Answering with the 6 digits of the question's own hex string parses
back to the question's RGB components. -/
lemma userAnswerRgb_self (r g b : Nat) (hr : r ≤ 255) (hg : g ≤ 255)
    (hb : b ≤ 255) : userAnswerRgb ((hexOf r g b).drop 1) = [r, g, b] := by
  have hrt := hexToRgb_hexOf r g b hr hg hb
  rw [hexOf, padTwoHex r hr, padTwoHex g hg, padTwoHex b hb] at hrt ⊢
  simp only [List.cons_append, List.nil_append, List.map_cons, List.map_nil,
    jsToUpper_hash] at hrt ⊢
  rw [userAnswerRgb]
  simp only [List.drop_succ_cons, List.drop_zero]
  rw [if_neg (by simp)]
  exact hrt

lemma questionRgbErrors_self (q : Question) (hr : q.r ≤ 255)
    (hg : q.g ≤ 255) (hb : q.b ≤ 255) (hhex : q.hex = hexOf q.r q.g q.b) :
    questionRgbErrors q (q.hex.drop 1) = [0, 0, 0] := by
  rw [questionRgbErrors, hhex, userAnswerRgb_self _ _ _ hr hg hb]
  simp [List.zipWith]

lemma questionHslErrors_self (q : Question) (hr : q.r ≤ 255)
    (hg : q.g ≤ 255) (hb : q.b ≤ 255) (hhex : q.hex = hexOf q.r q.g q.b) :
    questionHslErrors q (q.hex.drop 1) = [0, 0, 0] := by
  rw [questionHslErrors, hhex, userAnswerRgb_self _ _ _ hr hg hb]
  rw [hueError_self, slError_self, slError_self]

lemma foldl_zipWith_add_zero {α : Type} (f : α → List ℚ) (l : List α)
    (hf : ∀ x ∈ l, f x = [0, 0, 0]) :
    l.foldl (fun acc x => List.zipWith (· + ·) acc (f x)) [0, 0, 0] =
      [0, 0, 0] := by
  induction l with
  | nil => rfl
  | cons y ys ih =>
    rw [List.foldl_cons, hf y (List.mem_cons_self y ys)]
    have hz : List.zipWith (· + ·) ([0, 0, 0] : List ℚ) [0, 0, 0] =
        [0, 0, 0] := by
      norm_num [List.zipWith]
    rw [hz]
    exact ih fun x hx => hf x (List.mem_cons_of_mem y hx)

lemma foldl_add_zero (l : List ℚ) (h : ∀ x ∈ l, x = 0) :
    l.foldl (· + ·) 0 = 0 := by
  induction l with
  | nil => rfl
  | cons y ys ih =>
    rw [List.foldl_cons, h y (List.mem_cons_self y ys), add_zero]
    exact ih fun x hx => h x (List.mem_cons_of_mem y hx)

lemma zip_map_self {α β : Type} (l : List α) (f : α → β) :
    List.zip l (l.map f) = l.map fun x => (x, f x) := by
  induction l with
  | nil => rfl
  | cons y ys ih => simp [List.zip_cons_cons, ih]

/-! ### Claim theorems -/

/-- C1: for every r, g, b in [0,255], applying `hexToRgb` to the uppercase
zero-padded `#RRGGBB` string built by the hex-formatting half of
`generateRandomColor` returns exactly `[r, g, b]`. -/
theorem hexToRgb_hexOf_inverse (r g b : Nat) (hr : r ≤ 255) (hg : g ≤ 255)
    (hb : b ≤ 255) : hexToRgb (hexOf r g b) = [r, g, b] :=
  hexToRgb_hexOf r g b hr hg hb

theorem hexToRgb_hexOf_inverse_witness :
    16 ≤ 255 ∧ hexToRgb (hexOf 16 255 0) = [16, 255, 0] :=
  ⟨by norm_num, hexToRgb_hexOf_inverse 16 255 0 (by norm_num) (by norm_num)
    (by norm_num)⟩

/-- C3: the hue error is the circular distance
`min(|u−c|, 360−|u−c|)` divided by 180, non-negative and at most 1 for
hues in `[0,360)`; `hueError 10 350 = 20/180`; saturation/lightness errors
are the signed difference divided by 100, in `[-1,1]`, retaining sign. -/
theorem hslError_metric_props :
    hueError 10 350 = 20 / 180 ∧
    (∀ u c : ℚ, 0 ≤ u → u < 360 → 0 ≤ c → c < 360 →
      0 ≤ hueError u c ∧ hueError u c ≤ 1) ∧
    (∀ u c : ℚ, 0 ≤ u → u ≤ 100 → 0 ≤ c → c ≤ 100 →
      -1 ≤ slError u c ∧ slError u c ≤ 1) ∧
    (∀ u c : ℚ, slError u c = -slError c u) := by
  refine ⟨?_, ?_, ?_, ?_⟩
  · show min |(10 : ℚ) - 350| (360 - |(10 : ℚ) - 350|) / 180 = 20 / 180
    rw [show |(10 : ℚ) - 350| = 340 by rw [abs_of_neg (by norm_num)]; norm_num,
      min_eq_right (by norm_num)]
    norm_num
  · intro u c h1 h2 h3 h4
    have habs1 : 0 ≤ |u - c| := abs_nonneg _
    have habs2 : |u - c| < 360 := abs_sub_lt_iff.mpr ⟨by linarith, by linarith⟩
    constructor
    · show 0 ≤ min |u - c| (360 - |u - c|) / 180
      exact div_nonneg (le_min habs1 (by linarith)) (by norm_num)
    · show min |u - c| (360 - |u - c|) / 180 ≤ 1
      rw [div_le_one (by norm_num)]
      rcases le_total |u - c| 180 with h | h
      · exact le_trans (min_le_left _ _) h
      · exact le_trans (min_le_right _ _) (by linarith)
  · intro u c h1 h2 h3 h4
    unfold slError
    constructor
    · rw [le_div_iff₀ (by norm_num)]
      linarith
    · rw [div_le_one (by norm_num)]
      linarith
  · intro u c
    unfold slError
    ring

theorem hslError_metric_props_witness :
    (0 ≤ (20 : ℚ) ∧ 0 ≤ hueError 20 340 ∧ hueError 20 340 ≤ 1) ∧
    (-1 ≤ slError 30 90 ∧ slError 30 90 ≤ 1) :=
  ⟨⟨by norm_num, (hslError_metric_props.2.1 20 340 (by norm_num) (by norm_num)
      (by norm_num) (by norm_num)).1,
    (hslError_metric_props.2.1 20 340 (by norm_num) (by norm_num)
      (by norm_num) (by norm_num)).2⟩,
   hslError_metric_props.2.2.1 30 90 (by norm_num) (by norm_num)
      (by norm_num) (by norm_num)⟩

/-- C4: for non-achromatic input, `rgbToHsl` normalizes channels,
sets lightness to `(max+min)/2`, picks the saturation denominator by
lightness, and selects the hue by the standard six-segment formula with
the red-then-green-then-blue first-match tie-break — i.e. it agrees with
the spec-side `rgbToHslSpec`. -/
theorem rgbToHsl_nonachromatic_matches_spec (r g b : ℚ)
    (hne : max (r / 255) (max (g / 255) (b / 255)) ≠
      min (r / 255) (min (g / 255) (b / 255))) :
    rgbToHsl r g b = rgbToHslSpec r g b :=
  rgbToHsl_eq_spec r g b hne

theorem rgbToHsl_nonachromatic_matches_spec_witness :
    max ((255 : ℚ) / 255) (max (0 / 255) (0 / 255)) ≠
      min ((255 : ℚ) / 255) (min (0 / 255) (0 / 255)) ∧
    rgbToHsl 255 0 0 = rgbToHslSpec 255 0 0 := by
  have hne : max ((255 : ℚ) / 255) (max (0 / 255) (0 / 255)) ≠
      min ((255 : ℚ) / 255) (min (0 / 255) (0 / 255)) := by
    rw [show ((255 : ℚ) / 255) = 1 by norm_num,
      show ((0 : ℚ) / 255) = 0 by norm_num, max_self, min_self,
      max_eq_left (by norm_num : (0 : ℚ) ≤ 1),
      min_eq_right (by norm_num : (0 : ℚ) ≤ 1)]
    norm_num
  exact ⟨hne, rgbToHsl_nonachromatic_matches_spec 255 0 0 hne⟩

/-- C5 counterexample: on the malformed input `"#GGGGGG"` the parse is
`NaN` (modelled as `none`), yet `hexToRgb` does not produce NaN-propagating
results — the bitwise extraction coerces `NaN` to `0` and returns the
ordinary numbers `[0, 0, 0]`. -/
theorem malformed_hex_nan_counterexample :
    jsParseIntHex ("#GGGGGG".toList.drop 1) = none ∧
    hexToRgb "#GGGGGG".toList = [0, 0, 0] := by
  constructor <;> decide

/-- C5 (amended): malformed hex input is not validated and raises no
error, but the results are not NaN-propagating. `parseInt` follows its
ECMAScript semantics — skip leading white space, consume an optional
sign, strip an optional `0x`/`0X` prefix, then parse the longest prefix
of hexadecimal digits, `NaN` only when no digit follows — so e.g.
`"#12G456" ↦ [0, 0, 18]`, `"#0x1234" ↦ [0, 18, 52]`,
`"# ABCDE" ↦ [10, 188, 222]` and `"#-00FF0" ↦ [255, 240, 16]`; the
bitwise shift-and-mask coerces `NaN` to `0` (e.g. `"#GGGGGG" ↦ [0, 0, 0]`),
so `hexToRgb` always returns three ordinary integers in `[0, 255]` and
downstream arithmetic operates on plain numbers. -/
theorem malformed_hex_silent :
    hexToRgb "#GGGGGG".toList = [0, 0, 0] ∧
    hexToRgb "#12G456".toList = [0, 0, 18] ∧
    hexToRgb "#0x1234".toList = [0, 18, 52] ∧
    hexToRgb "# ABCDE".toList = [10, 188, 222] ∧
    hexToRgb "#-00FF0".toList = [255, 240, 16] ∧
    ∀ s : List Char, (hexToRgb s).length = 3 ∧
      ∀ x ∈ hexToRgb s, x ≤ 255 := by
  refine ⟨by decide, by decide, by decide, by decide, by decide, ?_⟩
  intro s
  refine ⟨rfl, ?_⟩
  intro x hx
  simp only [hexToRgb, List.mem_cons, List.not_mem_nil, or_false] at hx
  rcases hx with rfl | rfl | rfl <;>
    exact Nat.le_of_lt_succ (Nat.mod_lt _ (by norm_num))

theorem malformed_hex_silent_witness :
    0 ∈ hexToRgb "#ZZZZZZ".toList ∧ 0 ≤ 255 :=
  ⟨by decide,
    (malformed_hex_silent.2.2.2.2.2 "#ZZZZZZ".toList).2 0 (by decide)⟩

/-- C7: for r, g, b each in [0,255], `rgbToHsl` returns hue in `[0,360)`,
saturation in `[0,100]` and lightness in `[0,100]`. -/
theorem rgbToHsl_range_claim (r g b : ℚ) (hr0 : 0 ≤ r) (hr1 : r ≤ 255)
    (hg0 : 0 ≤ g) (hg1 : g ≤ 255) (hb0 : 0 ≤ b) (hb1 : b ≤ 255) :
    0 ≤ (rgbToHsl r g b).1 ∧ (rgbToHsl r g b).1 < 360 ∧
    0 ≤ (rgbToHsl r g b).2.1 ∧ (rgbToHsl r g b).2.1 ≤ 100 ∧
    0 ≤ (rgbToHsl r g b).2.2 ∧ (rgbToHsl r g b).2.2 ≤ 100 :=
  rgbToHsl_range r g b hr0 hr1 hg0 hg1 hb0 hb1

theorem rgbToHsl_range_claim_witness :
    ((0 : ℚ) ≤ 10 ∧ (10 : ℚ) ≤ 255) ∧
    (0 ≤ (rgbToHsl 10 200 30).1 ∧ (rgbToHsl 10 200 30).1 < 360 ∧
     0 ≤ (rgbToHsl 10 200 30).2.1 ∧ (rgbToHsl 10 200 30).2.1 ≤ 100 ∧
     0 ≤ (rgbToHsl 10 200 30).2.2 ∧ (rgbToHsl 10 200 30).2.2 ≤ 100) :=
  ⟨⟨by norm_num, by norm_num⟩,
    rgbToHsl_range_claim 10 200 30 (by norm_num) (by norm_num) (by norm_num)
      (by norm_num) (by norm_num) (by norm_num)⟩

/-- C8: for every gray input (r = g = b) hue and saturation are both 0;
in particular `rgbToHsl 0 0 0 = (0,0,0)` and
`rgbToHsl 255 255 255 = (0,0,100)`. -/
theorem rgbToHsl_achromatic_claim :
    (∀ v : ℚ, (rgbToHsl v v v).1 = 0 ∧ (rgbToHsl v v v).2.1 = 0) ∧
    rgbToHsl 0 0 0 = (0, 0, 0) ∧
    rgbToHsl 255 255 255 = (0, 0, 100) := by
  refine ⟨?_, ?_, ?_⟩
  · intro v
    rw [rgbToHsl_gray]
    exact ⟨rfl, rfl⟩
  · rw [rgbToHsl_gray]
    norm_num
  · rw [rgbToHsl_gray]
    norm_num

/-- C10: `hexToRgb` is case-insensitive — any string whose upper-cased form
is the canonical `#RRGGBB` string of `(r, g, b)` (so any mixed-case
spelling of it) parses to exactly `[r, g, b]`. -/
theorem hexToRgb_case_insensitive (r g b : Nat) (hr : r ≤ 255)
    (hg : g ≤ 255) (hb : b ≤ 255) (s : List Char)
    (hs : s.map jsToUpper = hexOf r g b) : hexToRgb s = [r, g, b] := by
  rw [← hexToRgb_map_jsToUpper, hs]
  exact hexToRgb_hexOf r g b hr hg hb

theorem hexToRgb_case_insensitive_witness :
    "#0aFf05".toList.map jsToUpper = hexOf 10 255 5 ∧
    hexToRgb "#0aFf05".toList = [10, 255, 5] := by
  have hs : "#0aFf05".toList.map jsToUpper = hexOf 10 255 5 := by
    rw [hexOf, padTwoHex 10 (by norm_num), padTwoHex 255 (by norm_num),
      padTwoHex 5 (by norm_num)]
    decide
  exact ⟨hs, hexToRgb_case_insensitive 10 255 5 (by norm_num) (by norm_num)
    (by norm_num) _ hs⟩

/-- C2: the RMSE pools all 3×N squared normalized RGB errors into one
list and takes √(mean)·100; for the single question `#FF0000` answered
`00FF00`, the average RGB error is [-100%, 100%, 0%] and the RMSE is
√(((-1)²+1²+0²)/3)·100, which lies in [81.64965, 81.64975) and hence
rounds at 4 decimal places to 81.6497. -/
theorem calculateScore_single_question_rmse :
    (calculateScore [⟨"#FF0000".toList, 255, 0, 0⟩]
      ["00FF00".toList]).avgRgbError = [-100, 100, 0] ∧
    (calculateScore [⟨"#FF0000".toList, 255, 0, 0⟩]
      ["00FF00".toList]).mse = ((-1 : ℚ) ^ 2 + 1 ^ 2 + 0 ^ 2) / 3 ∧
    (8164965 / 100000 : ℝ) ≤ Real.sqrt ((calculateScore
      [⟨"#FF0000".toList, 255, 0, 0⟩] ["00FF00".toList]).mse : ℝ) * 100 ∧
    Real.sqrt ((calculateScore [⟨"#FF0000".toList, 255, 0, 0⟩]
      ["00FF00".toList]).mse : ℝ) * 100 < (8164975 / 100000 : ℝ) := by
  have hu : userAnswerRgb "00FF00".toList = [0, 255, 0] := by decide
  have hrgbe : questionRgbErrors ⟨"#FF0000".toList, 255, 0, 0⟩
      "00FF00".toList = [-1, 1, 0] := by
    rw [questionRgbErrors, hu]
    norm_num [List.zipWith]
  have h1 : (calculateScore [⟨"#FF0000".toList, 255, 0, 0⟩]
      ["00FF00".toList]).avgRgbError = [-100, 100, 0] := by
    dsimp only [calculateScore]
    simp only [List.zip_cons_cons, List.zip_nil_right, List.foldl_cons,
      List.foldl_nil, hrgbe]
    norm_num
  have h2 : (calculateScore [⟨"#FF0000".toList, 255, 0, 0⟩]
      ["00FF00".toList]).mse = 2 / 3 := by
    dsimp only [calculateScore]
    simp only [List.zip_cons_cons, List.zip_nil_right, List.flatMap_cons,
      List.flatMap_nil, List.append_nil, hrgbe, List.map_cons, List.map_nil,
      List.foldl_cons, List.foldl_nil, List.length_cons, List.length_nil]
    norm_num
  have hcast : (((2 : ℚ) / 3 : ℚ) : ℝ) = 2 / 3 := by norm_num
  have hlow : (8164965 / 10000000 : ℝ) ≤ Real.sqrt (2 / 3) :=
    (Real.le_sqrt' (by norm_num)).mpr (by norm_num)
  have hhigh : Real.sqrt ((2 : ℝ) / 3) < 8164975 / 10000000 :=
    (Real.sqrt_lt' (by norm_num)).mpr (by norm_num)
  refine ⟨h1, by rw [h2]; norm_num, ?_, ?_⟩
  · rw [h2, hcast]
    linarith
  · rw [h2, hcast]
    linarith

/-- C6: an empty answer is treated as pure black (`hexToRgb "#000000"`),
not as a skipped question; for a single-question session with correct RGB
(0,0,0) and empty answer, every average error channel and the RMSE are
exactly 0. -/
theorem empty_answer_treated_as_black :
    userAnswerRgb [] = [0, 0, 0] ∧
    (calculateScore [⟨"#000000".toList, 0, 0, 0⟩]
      [([] : List Char)]).avgRgbError = [0, 0, 0] ∧
    (calculateScore [⟨"#000000".toList, 0, 0, 0⟩]
      [([] : List Char)]).avgHslError = [0, 0, 0] ∧
    (calculateScore [⟨"#000000".toList, 0, 0, 0⟩]
      [([] : List Char)]).mse = 0 ∧
    Real.sqrt ((calculateScore [⟨"#000000".toList, 0, 0, 0⟩]
      [([] : List Char)]).mse : ℝ) * 100 = 0 := by
  have hu : userAnswerRgb ([] : List Char) = [0, 0, 0] := by decide
  have hrgbe : questionRgbErrors ⟨"#000000".toList, 0, 0, 0⟩ [] =
      [0, 0, 0] := by
    rw [questionRgbErrors, hu]
    norm_num [List.zipWith]
  have hhsle : questionHslErrors ⟨"#000000".toList, 0, 0, 0⟩ [] =
      [0, 0, 0] := by
    rw [questionHslErrors, hu]
    dsimp only
    rw [hueError_self, slError_self, slError_self]
  have h1 : (calculateScore [⟨"#000000".toList, 0, 0, 0⟩]
      [([] : List Char)]).avgRgbError = [0, 0, 0] := by
    dsimp only [calculateScore]
    simp only [List.zip_cons_cons, List.zip_nil_right, List.foldl_cons,
      List.foldl_nil, hrgbe]
    norm_num
  have h2 : (calculateScore [⟨"#000000".toList, 0, 0, 0⟩]
      [([] : List Char)]).avgHslError = [0, 0, 0] := by
    dsimp only [calculateScore]
    simp only [List.zip_cons_cons, List.zip_nil_right, List.foldl_cons,
      List.foldl_nil, hhsle]
    norm_num
  have h3 : (calculateScore [⟨"#000000".toList, 0, 0, 0⟩]
      [([] : List Char)]).mse = 0 := by
    dsimp only [calculateScore]
    simp only [List.zip_cons_cons, List.zip_nil_right, List.flatMap_cons,
      List.flatMap_nil, List.append_nil, hrgbe, List.map_cons, List.map_nil,
      List.foldl_cons, List.foldl_nil, List.length_cons, List.length_nil]
    norm_num
  refine ⟨hu, h1, h2, h3, ?_⟩
  rw [h3]
  simp

/-- C9: if every answer equals the 6 hex digits of its question's stored
color (components being bytes, hex being canonical), `calculateScore`
yields avgRgbError = [0,0,0], avgHslError = [0,0,0] and RMSE = 0. -/
theorem calculateScore_perfect_score (questions : List Question)
    (hq : ∀ q ∈ questions, q.r ≤ 255 ∧ q.g ≤ 255 ∧ q.b ≤ 255 ∧
      q.hex = hexOf q.r q.g q.b) :
    (calculateScore questions
      (questions.map fun q => q.hex.drop 1)).avgRgbError = [0, 0, 0] ∧
    (calculateScore questions
      (questions.map fun q => q.hex.drop 1)).avgHslError = [0, 0, 0] ∧
    (calculateScore questions
      (questions.map fun q => q.hex.drop 1)).mse = 0 ∧
    Real.sqrt ((calculateScore questions
      (questions.map fun q => q.hex.drop 1)).mse : ℝ) * 100 = 0 := by
  have hpairs : List.zip questions (questions.map fun q => q.hex.drop 1) =
      questions.map fun q => (q, q.hex.drop 1) := zip_map_self _ _
  have hrgb : ∀ p ∈ questions.map fun q => (q, q.hex.drop 1),
      questionRgbErrors p.1 p.2 = [0, 0, 0] := by
    intro p hp
    rw [List.mem_map] at hp
    obtain ⟨q, hqm, rfl⟩ := hp
    obtain ⟨hr, hg, hb, hhex⟩ := hq q hqm
    exact questionRgbErrors_self q hr hg hb hhex
  have hhsl : ∀ p ∈ questions.map fun q => (q, q.hex.drop 1),
      questionHslErrors p.1 p.2 = [0, 0, 0] := by
    intro p hp
    rw [List.mem_map] at hp
    obtain ⟨q, hqm, rfl⟩ := hp
    obtain ⟨hr, hg, hb, hhex⟩ := hq q hqm
    exact questionHslErrors_self q hr hg hb hhex
  have h1 : (calculateScore questions
      (questions.map fun q => q.hex.drop 1)).avgRgbError = [0, 0, 0] := by
    dsimp only [calculateScore]
    rw [hpairs]
    have hz := foldl_zipWith_add_zero
      (fun p : Question × List Char => questionRgbErrors p.1 p.2)
      (questions.map fun q => (q, q.hex.drop 1)) hrgb
    beta_reduce at hz
    rw [hz]
    norm_num
  have h2 : (calculateScore questions
      (questions.map fun q => q.hex.drop 1)).avgHslError = [0, 0, 0] := by
    dsimp only [calculateScore]
    rw [hpairs]
    have hz := foldl_zipWith_add_zero
      (fun p : Question × List Char => questionHslErrors p.1 p.2)
      (questions.map fun q => (q, q.hex.drop 1)) hhsl
    beta_reduce at hz
    rw [hz]
    norm_num
  have h3 : (calculateScore questions
      (questions.map fun q => q.hex.drop 1)).mse = 0 := by
    dsimp only [calculateScore]
    rw [hpairs]
    have hsum : ((questions.map fun q => (q, q.hex.drop 1)).flatMap
        fun p => (questionRgbErrors p.1 p.2).map fun e => e ^ 2).foldl
          (· + ·) 0 = 0 := by
      apply foldl_add_zero
      intro x hx
      rw [List.mem_flatMap] at hx
      obtain ⟨p, hp, hxp⟩ := hx
      rw [hrgb p hp] at hxp
      norm_num at hxp
      exact hxp
    rw [hsum]
    exact zero_div _
  refine ⟨h1, h2, h3, ?_⟩
  rw [h3]
  simp

theorem calculateScore_perfect_score_witness :
    (∀ q ∈ [(⟨"#10FF00".toList, 16, 255, 0⟩ : Question)],
      q.r ≤ 255 ∧ q.g ≤ 255 ∧ q.b ≤ 255 ∧ q.hex = hexOf q.r q.g q.b) ∧
    (calculateScore [(⟨"#10FF00".toList, 16, 255, 0⟩ : Question)]
      ([(⟨"#10FF00".toList, 16, 255, 0⟩ : Question)].map
        fun q => q.hex.drop 1)).mse = 0 := by
  have hq : ∀ q ∈ [(⟨"#10FF00".toList, 16, 255, 0⟩ : Question)],
      q.r ≤ 255 ∧ q.g ≤ 255 ∧ q.b ≤ 255 ∧ q.hex = hexOf q.r q.g q.b := by
    intro q hqm
    rw [List.mem_singleton] at hqm
    subst hqm
    refine ⟨by norm_num, by norm_num, by norm_num, ?_⟩
    show "#10FF00".toList = hexOf 16 255 0
    rw [hexOf, padTwoHex 16 (by norm_num), padTwoHex 255 (by norm_num),
      padTwoHex 0 (by norm_num)]
    decide
  exact ⟨hq, (calculateScore_perfect_score _ hq).2.2.1⟩
